import Mathlib

/-!
Verification of the core of `yoshiori/latest-sender`.

The repository has two core components:

* `FileFinder::find_latest_file_with_period` (src/file_finder.rs): expands a
  glob pattern under a directory and returns the most-recently-modified
  regular file among the matches, optionally filtered by a recency window.
* `DiscordSender::send_file` / `send_file_async` (src/discord_sender.rs):
  uploads a file as a multipart HTTP POST to a webhook URL and classifies
  the outcome.

The embedding is shallow: filesystem and network effects are passed in as
explicit oracles (`FsOracle`, the glob expansion result, `Env`), timestamps
(`DateTime<Local>`, which is totally ordered) are modelled as `Int`, and
`chrono::Duration` values as `Int`.  Fallible Rust calls returning
`anyhow::Result` are modelled with `Except String`.
-/

namespace LatestSender

/-- Equality of `Except` values is decidable when it is on both components;
this lets concrete outcomes be checked by `decide`. -/
instance {ε α : Type} [DecidableEq ε] [DecidableEq α] : DecidableEq (Except ε α) :=
  fun x y =>
  match x, y with
  | .ok a, .ok b =>
      if h : a = b then .isTrue (by rw [h])
      else .isFalse (by intro hc; cases hc; exact h rfl)
  | .error a, .error b =>
      if h : a = b then .isTrue (by rw [h])
      else .isFalse (by intro hc; cases hc; exact h rfl)
  | .ok _, .error _ => .isFalse (by intro hc; cases hc)
  | .error _, .ok _ => .isFalse (by intro hc; cases hc)

/-! ## File finder (src/file_finder.rs) -/

/-- Shallow model of the part of `fs::Metadata` the finder reads: whether the
entry is a regular file (`metadata.is_file()`) and the result of
`metadata.modified()`, an integer timestamp which may itself fail. -/
structure Metadata where
  is_file : Bool
  modified : Except String Int
deriving Repr, DecidableEq

/-- The filesystem as observed through `fs::metadata(&path)`: a path either
has retrievable metadata or the call fails (permission denied, deleted). -/
abbrev FsOracle := String → Except String Metadata

/-- One entry yielded by the `glob(...)` iterator: `Ok(path)` for a match, or
`Err(GlobError)` when the walk hit an unreadable directory entry. -/
abbrev GlobEntry := Except String String

/-- The accumulator update of the scan loop (file_finder.rs:44-51): replace
the running best exactly when the new modification time is strictly greater
(`modified_time > *current_latest`), keeping the first-seen pair on ties. -/
def pick (latest_file : Option (String × Int)) (c : String × Int) :
    Option (String × Int) :=
  match latest_file with
  | none => some c
  | some b => if c.2 > b.2 then some c else some b

/-- The scan loop of `find_latest_file_with_period` (file_finder.rs:32-56):
walk the glob entries keeping the running best `(path, modified_time)` pair.
An `Err` glob entry is logged to stderr and skipped; a failure of
`fs::metadata` or of `metadata.modified()` aborts the whole call through `?`
with the corresponding context message; non-regular files are ignored. -/
def findLatestScan (fs : FsOracle) :
    List GlobEntry → Option (String × Int) → Except String (Option (String × Int))
  | [], latest_file => .ok latest_file
  | .error _e :: rest, latest_file =>
      -- `Err(e) => eprintln!("Error reading glob entry: {e:?}")`
      findLatestScan fs rest latest_file
  | .ok path :: rest, latest_file =>
      match fs path with
      | .error _ => .error ("Failed to get metadata for " ++ path)
      | .ok metadata =>
          if metadata.is_file then
            match metadata.modified with
            | .error _ => .error ("Failed to get modified time for " ++ path)
            | .ok modified_time =>
                match latest_file with
                | none => findLatestScan fs rest (some (path, modified_time))
                | some (p, current_latest) =>
                    if modified_time > current_latest then
                      findLatestScan fs rest (some (path, modified_time))
                    else
                      findLatestScan fs rest (some (p, current_latest))
          else
            findLatestScan fs rest latest_file

/-- On Unix, `Path::new(directory).is_absolute()` holds exactly when the
path begins with the separator `/`. -/
def isAbsolute (s : String) : Bool :=
  s.data.head? == some '/'

/-- Building the search expression (file_finder.rs:19-28): an absolute
directory is joined with the pattern directly; a relative one is first
resolved against `std::env::current_dir()?` (which may fail). -/
def searchPatternOf (current_dir : Except String String)
    (directory pattern : String) : Except String String :=
  if isAbsolute directory then
    .ok (directory ++ "/" ++ pattern)
  else
    current_dir.map (fun cwd => cwd ++ "/" ++ directory ++ "/" ++ pattern)

/-- The selection phase (file_finder.rs:19-56): build the search expression,
expand the glob (`glob(&search_pattern).context("Failed to read glob
pattern")?` turns a pattern syntax error into a hard failure), then run the
scan loop from an empty accumulator. -/
def scanOutcome (fs : FsOracle)
    (globFn : String → Except String (List GlobEntry))
    (current_dir : Except String String) (directory pattern : String) :
    Except String (Option (String × Int)) := do
  let search_pattern ← searchPatternOf current_dir directory pattern
  match globFn search_pattern with
  | .error _ => Except.error "Failed to read glob pattern"
  | .ok entries => findLatestScan fs entries none

/-- The recency filter (file_finder.rs:58-69): when both a best candidate and
a check period exist, compute `cutoff_time = now - period` and return `None`
when the candidate is strictly older; otherwise (including when no period
was supplied) return `latest_file.map(|(path, _)| path)`. -/
def applyCutoff (now : Int) (check_period : Option Int)
    (latest_file : Option (String × Int)) : Option String :=
  match latest_file, check_period with
  | some (_path, modified_time), some period =>
      if modified_time < now - period then
        none
      else
        latest_file.map Prod.fst
  | _, _ => latest_file.map Prod.fst

/-- `FileFinder::find_latest_file_with_period` (file_finder.rs:14-70). -/
def find_latest_file_with_period (fs : FsOracle)
    (globFn : String → Except String (List GlobEntry))
    (current_dir : Except String String) (now : Int)
    (directory pattern : String) (check_period : Option Int) :
    Except String (Option String) :=
  (scanOutcome fs globFn current_dir directory pattern).map
    (applyCutoff now check_period)

/-- `FileFinder::find_latest_file` (file_finder.rs:10-12): delegates with no
check period. -/
def find_latest_file (fs : FsOracle)
    (globFn : String → Except String (List GlobEntry))
    (current_dir : Except String String) (now : Int)
    (directory pattern : String) : Except String (Option String) :=
  find_latest_file_with_period fs globFn current_dir now directory pattern none

/-! ### A concrete class of filesystems, for whole-filesystem statements

`glob` only ever hands the loop the paths that match the pattern; to state
"non-matching files never affect the result" we instantiate the oracles from
an explicit directory listing and an abstract match predicate. -/

/-- A directory entry: its path, whether it is a regular file, and its
modification timestamp. -/
structure FsEntry where
  path : String
  is_file : Bool
  mtime : Int
deriving Repr, DecidableEq

/-- The `fs::metadata` oracle induced by a directory listing. -/
def fsOf (files : List FsEntry) : FsOracle := fun p =>
  match files.find? (fun f => f.path == p) with
  | some f => .ok ⟨f.is_file, .ok f.mtime⟩
  | none => .error "No such file or directory"

/-- The glob expansion induced by a listing and a match predicate: exactly
the matching paths, in listing order, each enumerated without error. -/
def globOf (globMatch : String → Bool) (files : List FsEntry) : List GlobEntry :=
  (files.filter (fun f => globMatch f.path)).map (fun f => .ok f.path)

/-- The candidate `(path, mtime)` pairs the loop actually ranks: matching
entries that are regular files, in scan order. -/
def candidatesOf (globMatch : String → Bool) (files : List FsEntry) :
    List (String × Int) :=
  ((files.filter (fun f => globMatch f.path)).filter (fun f => f.is_file)).map
    (fun f => (f.path, f.mtime))

/-! ## Discord sender (src/discord_sender.rs) -/

/-- Model of `std::ffi::OsStr`, a path component: it converts to a `String`
through `to_str` exactly when it is valid UTF-8. -/
structure OsStrM where
  to_str : Option String
deriving Repr, DecidableEq

/-- Model of `&Path` as the uploader observes it: its debug rendering (used
in error messages via the Rust format specifier for debug output) and its
final component as returned by `Path::file_name` (`none` for a root path or
a path ending in a parent-directory component). -/
structure RPath where
  rendered : String
  file_name : Option OsStrM
deriving Repr, DecidableEq

/-- One part of a `reqwest` multipart form: a binary part with a field name
and a declared filename (`Part::bytes(..).file_name(..)`), or a text part
(`Form::text`). -/
inductive FormPart where
  | bytes (field : String) (data : List Nat) (filename : String)
  | text (field : String) (content : String)
deriving Repr, DecidableEq

/-- An HTTP response as the sender observes it: a numeric status code and
the result of `response.text()`, which may itself fail. -/
structure HttpResponse where
  status : Nat
  body : Except String String
deriving Repr, DecidableEq

/-- The effect environment of one `send_file` call: the outcome of
`File::open`, of reading the contents, and of `client.post(..).send()`
(transport error or a response), plus the canonical reason phrase the
`Display` rendering of a status code appends after the number (with its
fixed fallback for unknown codes). -/
structure Env where
  openResult : Except String Unit
  readResult : Except String (List Nat)
  httpResult : Except String HttpResponse
  reason : Nat → String

/-- `StatusCode::is_success()`: the 2xx class, `200 ≤ s ≤ 299`. -/
def status_is_success (s : Nat) : Bool :=
  200 ≤ s && s < 300

/-- The `Display` rendering of a status code: the number, a space, and the
canonical reason phrase (or its fixed fallback). -/
def statusDisplay (env : Env) (s : Nat) : String :=
  toString s ++ " " ++ env.reason s

/-- The distinct failure sites of `send_file` / `send_file_async`, each
carrying the message the Rust code attaches there (`context` / `bail!`). -/
inductive SendError where
  | fileName (msg : String)
  | openFile (msg : String)
  | readFile (msg : String)
  | transport (msg : String)
  | discordApi (msg : String)
deriving Repr, DecidableEq

/-- What one call observably did: its returned outcome, the issued HTTP
request (endpoint and multipart form), if any, and whether the file was
touched at all. -/
structure SendResult where
  outcome : Except SendError Unit
  request : Option (String × List FormPart)
  fileTouched : Bool
deriving Repr, DecidableEq

/-- The spec's classification of an upload outcome (§3 UploadOutcome):
success, local I/O failure, transport failure, or remote rejection. -/
inductive OutcomeClass where
  | success
  | localFailure
  | transportFailure
  | remoteRejection
deriving Repr, DecidableEq

/-- Classification of a call result into the spec's four outcome classes.
The three local failure sites (missing/invalid file name, open failure,
read failure) are all local failures. -/
def classify : Except SendError Unit → OutcomeClass
  | .ok _ => .success
  | .error (.fileName _) => .localFailure
  | .error (.openFile _) => .localFailure
  | .error (.readFile _) => .localFailure
  | .error (.transport _) => .transportFailure
  | .error (.discordApi _) => .remoteRejection

/-- The multipart form built at discord_sender.rs:28-35 / 67-74: one binary
part with field name `file` carrying the buffer and the derived filename,
then, exactly when a message was supplied, one text part with field name
`content` carrying it. -/
def buildForm (buffer : List Nat) (file_name : String) (message : Option String) :
    List FormPart :=
  FormPart.bytes "file" buffer file_name ::
    (match message with
     | some msg => [FormPart.text "content" msg]
     | none => [])

/-- The response classification shared by both paths
(discord_sender.rs:44-52 and 89-96): a non-success status becomes a
`bail!` whose message carries the status display and the response body
text, with the fixed placeholder when the body cannot be read; a success
status returns `Ok(())` with no body validation. -/
def classifyResponse (env : Env) (response : HttpResponse) : Except SendError Unit :=
  if !(status_is_success response.status) then
    let error_text :=
      match response.body with
      | .ok t => t
      | .error _ => "No error message"
    .error (.discordApi ("Discord API returned error: " ++
      statusDisplay env response.status ++ " - " ++ error_text))
  else
    .ok ()

/-- `DiscordSender::send_file` (discord_sender.rs:10-53), the blocking path:
derive the file name via `path.file_name().and_then(|n| n.to_str())`, open
the file, read it fully, build the multipart form, POST it, and classify
the response. -/
def send_file (env : Env) (webhook_url : String) (path : RPath)
    (message : Option String) : SendResult :=
  match path.file_name.bind OsStrM.to_str with
  | none => ⟨.error (.fileName "Failed to get file name"), none, false⟩
  | some file_name =>
      match env.openResult with
      | .error _ =>
          ⟨.error (.openFile ("Failed to open file: " ++ path.rendered)), none, true⟩
      | .ok _ =>
          match env.readResult with
          | .error _ =>
              ⟨.error (.readFile ("Failed to read file: " ++ path.rendered)), none, true⟩
          | .ok buffer =>
              let form := buildForm buffer file_name message
              match env.httpResult with
              | .error _ =>
                  ⟨.error (.transport "Failed to send request to Discord"),
                    some (webhook_url, form), true⟩
              | .ok response =>
                  ⟨classifyResponse env response, some (webhook_url, form), true⟩

/-- `tokio::fs::read` opens the file and reads it to the end in one call:
it fails exactly when opening or reading fails, with the underlying error. -/
def tokioRead (env : Env) : Except String (List Nat) :=
  match env.openResult with
  | .error e => .error e
  | .ok _ => env.readResult

/-- `DiscordSender::send_file_async` (discord_sender.rs:55-97), the
non-blocking path: identical except that the open and the read are a single
`tokio::fs::read` call under the single `Failed to read file` context. -/
def send_file_async (env : Env) (webhook_url : String) (path : RPath)
    (message : Option String) : SendResult :=
  match path.file_name.bind OsStrM.to_str with
  | none => ⟨.error (.fileName "Failed to get file name"), none, false⟩
  | some file_name =>
      match tokioRead env with
      | .error _ =>
          ⟨.error (.readFile ("Failed to read file: " ++ path.rendered)), none, true⟩
      | .ok buffer =>
          let form := buildForm buffer file_name message
          match env.httpResult with
          | .error _ =>
              ⟨.error (.transport "Failed to send request to Discord"),
                some (webhook_url, form), true⟩
          | .ok response =>
              ⟨classifyResponse env response, some (webhook_url, form), true⟩

/-! ## Concrete environments used to instantiate theorems with hypotheses -/

/-- A filesystem where only `b.txt` has retrievable metadata. -/
def fsC2 : FsOracle := fun p =>
  if p == "b.txt" then .ok ⟨true, .ok 5⟩ else .error "Permission denied"

/-- A glob expansion with two matches, the first of which will fail metadata
retrieval under `fsC2`. -/
def globC2 : String → Except String (List GlobEntry) :=
  fun _ => .ok [.ok "a.txt", .ok "b.txt"]

/-- A filesystem where every path is a regular file modified at time 100. -/
def fsC3 : FsOracle := fun _ => .ok ⟨true, .ok 100⟩

/-- A glob expansion with the single match `/d/x.txt`. -/
def globC3 : String → Except String (List GlobEntry) :=
  fun _ => .ok [.ok "/d/x.txt"]

/-- A five-entry directory listing: three matching regular `.txt` files
(with a modification-time tie between `b.txt` and `c.txt`), one non-matching
file, and one matching non-regular entry. -/
def filesW1 : List FsEntry :=
  [⟨"/d/a.txt", true, 10⟩, ⟨"/d/b.txt", true, 30⟩, ⟨"/d/c.txt", true, 30⟩,
   ⟨"/d/skip.log", true, 99⟩, ⟨"/d/sub.txt", false, 99⟩]

/-- An environment for the sender in which every step succeeds and the
endpoint replies 204 with an empty body. -/
def envOk : Env :=
  ⟨.ok (), .ok [84, 101], .ok ⟨204, .ok ""⟩, fun _ => "No Content"⟩

/-- An environment in which the endpoint replies 400 with a diagnostic
body. -/
def envRejected : Env :=
  ⟨.ok (), .ok [84, 101], .ok ⟨400, .ok "Invalid Webhook Token"⟩,
    fun _ => "Bad Request"⟩

/-- A path whose final component is a valid UTF-8 name. -/
def pathGood : RPath := ⟨"backup.tar.gz", some ⟨some "backup.tar.gz"⟩⟩

/-- A root-like path with no extractable file-name component. -/
def pathRoot : RPath := ⟨"/", none⟩

/-- A path whose final component exists but is not valid UTF-8. -/
def pathBadUtf8 : RPath := ⟨"invalid-utf8-name", some ⟨none⟩⟩

/-! ### Step lemmas for the scan loop -/

lemma findLatestScan_nil (fs : FsOracle) (latest_file : Option (String × Int)) :
    findLatestScan fs [] latest_file = .ok latest_file := rfl

lemma findLatestScan_cons_err (fs : FsOracle) (e : String) (rest : List GlobEntry)
    (latest_file : Option (String × Int)) :
    findLatestScan fs (.error e :: rest) latest_file =
      findLatestScan fs rest latest_file := rfl

lemma findLatestScan_cons_metaerr (fs : FsOracle) (p : String) (msg : String)
    (h : fs p = .error msg) (rest : List GlobEntry)
    (latest_file : Option (String × Int)) :
    findLatestScan fs (.ok p :: rest) latest_file =
      .error ("Failed to get metadata for " ++ p) := by
  conv_lhs => rw [findLatestScan]
  rw [h]

lemma findLatestScan_cons_notfile (fs : FsOracle) (p : String) (md : Metadata)
    (h : fs p = .ok md) (hf : md.is_file = false) (rest : List GlobEntry)
    (latest_file : Option (String × Int)) :
    findLatestScan fs (.ok p :: rest) latest_file =
      findLatestScan fs rest latest_file := by
  conv_lhs => rw [findLatestScan]
  rw [h]
  simp [hf]

lemma findLatestScan_cons_file (fs : FsOracle) (p : String) (md : Metadata)
    (mt : Int) (h : fs p = .ok md) (hf : md.is_file = true)
    (hm : md.modified = .ok mt) (rest : List GlobEntry)
    (latest_file : Option (String × Int)) :
    findLatestScan fs (.ok p :: rest) latest_file =
      findLatestScan fs rest (pick latest_file (p, mt)) := by
  conv_lhs => rw [findLatestScan]
  rw [h]
  cases latest_file with
  | none => simp [pick, hf, hm]
  | some b =>
      obtain ⟨q, cur⟩ := b
      by_cases hc : cur < mt
      · simp [pick, hf, hm, gt_iff_lt, hc]
      · simp [pick, hf, hm, gt_iff_lt, hc]

/-! ### The scan over a listing-induced filesystem computes a pure fold -/

lemma find?_eq_self_of_nodup (files : List FsEntry) (f : FsEntry)
    (hnd : (files.map FsEntry.path).Nodup) (hf : f ∈ files) :
    files.find? (fun g => g.path == f.path) = some f := by
  induction files with
  | nil => cases hf
  | cons g rest ih =>
      rcases List.mem_cons.mp hf with rfl | hf'
      · simp [List.find?]
      · have hne : (g.path == f.path) = false := by
          rw [beq_eq_false_iff_ne]
          intro h
          have : g.path ∈ rest.map FsEntry.path := by
            rw [h]
            exact List.mem_map_of_mem FsEntry.path hf'
          exact (List.nodup_cons.mp hnd).1 this
        rw [List.find?_cons_of_neg _ (by simp [hne]), ih (List.nodup_cons.mp hnd).2 hf']

lemma fsOf_eval (files : List FsEntry) (f : FsEntry)
    (hnd : (files.map FsEntry.path).Nodup) (hf : f ∈ files) :
    fsOf files f.path = .ok ⟨f.is_file, .ok f.mtime⟩ := by
  unfold fsOf
  rw [find?_eq_self_of_nodup files f hnd hf]

lemma findLatestScan_listing (fs : FsOracle) (l : List FsEntry)
    (acc : Option (String × Int))
    (h : ∀ f ∈ l, fs f.path = .ok ⟨f.is_file, .ok f.mtime⟩) :
    findLatestScan fs (l.map (fun f => .ok f.path)) acc =
      .ok (((l.filter (fun f => f.is_file)).map
        (fun f => (f.path, f.mtime))).foldl pick acc) := by
  induction l generalizing acc with
  | nil => rfl
  | cons f rest ih =>
      have hf := h f (List.mem_cons_self f rest)
      have hrest : ∀ g ∈ rest, fs g.path = .ok ⟨g.is_file, .ok g.mtime⟩ :=
        fun g hg => h g (List.mem_cons_of_mem f hg)
      by_cases hfile : f.is_file
      · rw [List.map_cons,
          findLatestScan_cons_file fs f.path ⟨f.is_file, .ok f.mtime⟩ f.mtime hf hfile rfl,
          List.filter_cons_of_pos (by simpa using hfile), List.map_cons, List.foldl_cons]
        exact ih (pick acc (f.path, f.mtime)) hrest
      · rw [List.map_cons,
          findLatestScan_cons_notfile fs f.path ⟨f.is_file, .ok f.mtime⟩ hf
            (by simpa using hfile),
          List.filter_cons_of_neg (by simpa using hfile)]
        exact ih acc hrest

/-! ### The fold is `List.argmax Prod.snd`: maximal, first-seen on ties -/

lemma pick_eq_argAux :
    pick = List.argAux (fun b c : String × Int => Prod.snd c < Prod.snd b) := by
  funext a b
  cases a with
  | none => rfl
  | some x =>
      simp only [pick, List.argAux, gt_iff_lt]

lemma foldl_pick_eq_argmax (l : List (String × Int)) :
    l.foldl pick none = l.argmax Prod.snd := by
  rw [List.argmax, pick_eq_argAux]

lemma searchPatternOf_isOk (cwd directory pattern : String) :
    searchPatternOf (.ok cwd) directory pattern =
      .ok (if isAbsolute directory then directory ++ "/" ++ pattern
        else cwd ++ "/" ++ directory ++ "/" ++ pattern) := by
  unfold searchPatternOf
  split <;> rfl

lemma scanOutcome_const (fs : FsOracle) (entries : List GlobEntry)
    (cwd directory pattern : String) :
    scanOutcome fs (fun _ => .ok entries) (.ok cwd) directory pattern =
      findLatestScan fs entries none := by
  unfold scanOutcome
  rw [searchPatternOf_isOk]
  rfl

lemma scan_listing (files : List FsEntry) (globMatch : String → Bool)
    (hnd : (files.map FsEntry.path).Nodup) :
    findLatestScan (fsOf files) (globOf globMatch files) none =
      .ok ((candidatesOf globMatch files).argmax Prod.snd) := by
  unfold globOf
  rw [findLatestScan_listing (fsOf files) (files.filter (fun f => globMatch f.path)) none
    (fun f hf => fsOf_eval files f hnd (List.mem_of_mem_filter hf))]
  rw [show ((files.filter (fun f => globMatch f.path)).filter
      (fun f => f.is_file)).map (fun f => (f.path, f.mtime)) =
      candidatesOf globMatch files from rfl]
  rw [foldl_pick_eq_argmax]

lemma applyCutoff_nonePeriod (now : Int) (latest_file : Option (String × Int)) :
    applyCutoff now none latest_file = latest_file.map Prod.fst := by
  cases latest_file with
  | none => rfl
  | some b => obtain ⟨p, t⟩ := b; rfl

lemma applyCutoff_someSome (now w : Int) (p : String) (t : Int) :
    applyCutoff now (some w) (some (p, t)) =
      if t < now - w then none else some p := rfl

lemma indexOf_inst_irrel (c : String × Int) (l : List (String × Int)) :
    l.indexOf c = @List.indexOf _ instBEqOfDecidableEq c l := by
  unfold List.indexOf
  congr 1
  funext d
  show (d == c) = decide (d = c)
  by_cases h : d = c
  · subst h
    simp
  · simp [beq_eq_false_iff_ne, h]

/-! ## Claims about the selector -/

/-- C1: over every directory listing with distinct paths, every match
predicate, and every directory/pattern argument, the selector (with no
recency window) returns exactly the `argmax` by modification time of the
candidate list — the matching regular files in scan order.  The candidate
returned is a member of that list, its timestamp is maximal, and on equal
timestamps it is the first-seen one (its index is minimal among maximisers,
because replacement uses strict greater-than); the result is a function of
the candidate list alone, so non-matching files and non-regular-file
entries never affect it. -/
theorem C1_selector_latest (files : List FsEntry) (globMatch : String → Bool)
    (directory pattern cwd : String) (now : Int)
    (hnd : (files.map FsEntry.path).Nodup) :
    find_latest_file_with_period (fsOf files)
        (fun _ => .ok (globOf globMatch files)) (.ok cwd) now directory pattern none =
      .ok (((candidatesOf globMatch files).argmax Prod.snd).map Prod.fst) ∧
    (∀ c ∈ (candidatesOf globMatch files).argmax Prod.snd,
      c ∈ candidatesOf globMatch files ∧
      (∀ d ∈ candidatesOf globMatch files, d.2 ≤ c.2) ∧
      (∀ d ∈ candidatesOf globMatch files, c.2 ≤ d.2 →
        (candidatesOf globMatch files).indexOf c ≤
          (candidatesOf globMatch files).indexOf d)) ∧
    ((candidatesOf globMatch files).argmax Prod.snd = none ↔
      candidatesOf globMatch files = []) := by
  refine ⟨?_, ?_, List.argmax_eq_none⟩
  · unfold find_latest_file_with_period
    rw [scanOutcome_const, scan_listing files globMatch hnd]
    simp [Except.map, applyCutoff_nonePeriod]
  · intro c hc
    refine ⟨List.argmax_mem hc, fun d hd => List.le_of_mem_argmax hd hc,
      fun d hd hle => ?_⟩
    rw [indexOf_inst_irrel c, indexOf_inst_irrel d]
    exact List.index_of_argmax hc hd hle

theorem C1_selector_latest_witness :
    (filesW1.map FsEntry.path).Nodup ∧
    find_latest_file_with_period (fsOf filesW1)
        (fun _ => .ok (globOf (fun s => s != "/d/skip.log") filesW1))
        (.ok "/w") 1000 "/d" "*.txt" none = .ok (some "/d/b.txt") := by
  refine ⟨by decide, ?_⟩
  have h := C1_selector_latest filesW1 (fun s => s != "/d/skip.log")
    "/d" "*.txt" "/w" 1000 (by decide)
  rw [h.1]
  decide

/-- C3: whenever the scan produced a best candidate with timestamp `t` and a
recency window `w` is supplied, the selector returns that candidate exactly
when `now - t ≤ w` (the code tests `modified_time < now - period`, the exact
complement over integers), and returns an empty result otherwise. -/
theorem C3_recency_window (fs : FsOracle)
    (globFn : String → Except String (List GlobEntry))
    (current_dir : Except String String) (directory pattern p : String)
    (t now w : Int)
    (hscan : scanOutcome fs globFn current_dir directory pattern = .ok (some (p, t))) :
    (find_latest_file_with_period fs globFn current_dir now directory pattern
        (some w) = .ok (some p) ↔ now - t ≤ w) ∧
    (¬ now - t ≤ w →
      find_latest_file_with_period fs globFn current_dir now directory pattern
        (some w) = .ok none) := by
  unfold find_latest_file_with_period
  rw [hscan]
  simp only [Except.map, applyCutoff_someSome]
  refine ⟨⟨fun hres => ?_, fun hle => ?_⟩, fun hgt => ?_⟩
  · by_contra hw
    rw [if_pos (by omega)] at hres
    exact absurd hres (by simp)
  · rw [if_neg (by omega)]
  · rw [if_pos (by omega)]

theorem C3_recency_window_witness :
    (find_latest_file_with_period fsC3 globC3 (.ok "/w") 150 "/d" "*.txt"
      (some 60) = .ok (some "/d/x.txt")) ∧
    (find_latest_file_with_period fsC3 globC3 (.ok "/w") 150 "/d" "*.txt"
      (some 40) = .ok none) :=
  ⟨((C3_recency_window fsC3 globC3 (.ok "/w") "/d" "*.txt" "/d/x.txt" 100 150 60
      (by decide)).1).mpr (by decide),
   (C3_recency_window fsC3 globC3 (.ok "/w") "/d" "*.txt" "/d/x.txt" 100 150 40
      (by decide)).2 (by decide)⟩

/-- C7: with no recency window the cutoff check is skipped entirely: the
call returns the scan's best candidate mapped to its path, for every `now`;
in particular whenever the scan found a best candidate it is returned,
regardless of its age. -/
theorem C7_no_window (fs : FsOracle)
    (globFn : String → Except String (List GlobEntry))
    (current_dir : Except String String) (now : Int) (directory pattern : String) :
    find_latest_file_with_period fs globFn current_dir now directory pattern none =
      (scanOutcome fs globFn current_dir directory pattern).map (Option.map Prod.fst) ∧
    (∀ (p : String) (t : Int),
      scanOutcome fs globFn current_dir directory pattern = .ok (some (p, t)) →
      find_latest_file_with_period fs globFn current_dir now directory pattern none =
        .ok (some p)) := by
  constructor
  · unfold find_latest_file_with_period
    cases h : scanOutcome fs globFn current_dir directory pattern with
    | error e => rfl
    | ok latest => simp [Except.map, applyCutoff_nonePeriod]
  · intro p t hscan
    unfold find_latest_file_with_period
    rw [hscan]
    simp [Except.map, applyCutoff_nonePeriod]

theorem C7_no_window_witness :
    find_latest_file_with_period fsC3 globC3 (.ok "/w") 99999999 "/d" "*.txt"
      none = .ok (some "/d/x.txt") :=
  (C7_no_window fsC3 globC3 (.ok "/w") 99999999 "/d" "*.txt").2 "/d/x.txt" 100
    (by decide)

/-- C6: the non-match outcomes are a normal `Ok(None)`, never an error — an
empty glob expansion yields `Ok(None)`, and so does a best candidate older
than the recency window — while an invalid glob pattern (the `glob` call
itself failing) is a hard `Err` with the fixed context message,
distinguishable from `Ok(None)` by constructor. -/
theorem C6_no_match_vs_error (cwd directory pattern : String) (now : Int)
    (check_period : Option Int) :
    (∀ (fs : FsOracle) (msg : String),
      find_latest_file_with_period fs (fun _ => .error msg) (.ok cwd) now
        directory pattern check_period = .error "Failed to read glob pattern") ∧
    (∀ fs : FsOracle,
      find_latest_file_with_period fs (fun _ => .ok []) (.ok cwd) now
        directory pattern check_period = .ok none) ∧
    (∀ (fs : FsOracle) (globFn : String → Except String (List GlobEntry))
      (p : String) (t w : Int),
      scanOutcome fs globFn (.ok cwd) directory pattern = .ok (some (p, t)) →
      t < now - w →
      find_latest_file_with_period fs globFn (.ok cwd) now directory pattern
        (some w) = .ok none) ∧
    (∀ msg : String, (Except.error msg : Except String (Option String)) ≠ .ok none) := by
  refine ⟨fun fs msg => ?_, fun fs => ?_, fun fs globFn p t w hscan hold => ?_,
    fun msg h => by simp at h⟩
  · unfold find_latest_file_with_period scanOutcome
    rw [searchPatternOf_isOk]
    rfl
  · unfold find_latest_file_with_period scanOutcome
    rw [searchPatternOf_isOk]
    cases check_period with
    | none => rfl
    | some w => rfl
  · unfold find_latest_file_with_period
    rw [hscan]
    simp only [Except.map, applyCutoff_someSome]
    rw [if_pos hold]

theorem C6_no_match_vs_error_witness :
    (find_latest_file_with_period fsC3 (fun _ => .error "bad bracket")
      (.ok "/w") 0 "/d" "*" none = .error "Failed to read glob pattern") ∧
    (find_latest_file_with_period fsC3 (fun _ => .ok []) (.ok "/w") 0 "/d" "*"
      none = .ok none) ∧
    (find_latest_file_with_period fsC3 globC3 (.ok "/w") 150 "/d" "*.txt"
      (some 10) = .ok none) :=
  ⟨(C6_no_match_vs_error "/w" "/d" "*" 0 none).1 fsC3 "bad bracket",
   (C6_no_match_vs_error "/w" "/d" "*" 0 none).2.1 fsC3,
   (C6_no_match_vs_error "/w" "/d" "*.txt" 150 (some 10)).2.2.1 fsC3 globC3
     "/d/x.txt" 100 10 (by decide) (by decide)⟩

/-- C2, counterexample: the claim says a glob match whose metadata retrieval
fails is skipped and the call still returns the best among the remaining
candidates.  With two matches `a.txt`, `b.txt` where metadata retrieval
fails for `a.txt` (permission denied) and `b.txt` is a fine regular file,
the call returns `Err` — the `?` on `fs::metadata` aborts the whole scan —
and not `Ok(Some("b.txt"))`. -/
theorem C2_skip_counterexample :
    find_latest_file_with_period fsC2 globC2 (.ok "/w") 100 "/backups" "*.txt"
        none = .error "Failed to get metadata for a.txt" ∧
    ¬ find_latest_file_with_period fsC2 globC2 (.ok "/w") 100 "/backups" "*.txt"
        none = .ok (some "b.txt") := by
  constructor <;> decide

/-- C2, amended: during the scan, entries the glob iterator itself reports
as errors (`Err(GlobError)`, e.g. an unreadable directory during the walk)
are logged and skipped and never abort the scan; but when `fs::metadata`
fails for a successfully enumerated match, the call aborts with `Err`
instead of returning the best among the remaining candidates. -/
theorem C2_glob_errors_skipped :
    (∀ (fs : FsOracle) (e : String) (rest : List GlobEntry)
      (acc : Option (String × Int)),
      findLatestScan fs (.error e :: rest) acc = findLatestScan fs rest acc) ∧
    (∀ (fs : FsOracle) (p msg : String) (rest : List GlobEntry)
      (acc : Option (String × Int)),
      fs p = .error msg →
      findLatestScan fs (.ok p :: rest) acc =
        .error ("Failed to get metadata for " ++ p)) :=
  ⟨fun fs e rest acc => findLatestScan_cons_err fs e rest acc,
   fun fs p msg rest acc h => findLatestScan_cons_metaerr fs p msg h rest acc⟩

theorem C2_glob_errors_skipped_witness :
    (findLatestScan fsC2 [.error "walk error", .ok "b.txt"] none =
      findLatestScan fsC2 [.ok "b.txt"] none) ∧
    (findLatestScan fsC2 [.ok "a.txt", .ok "b.txt"] none =
      .error "Failed to get metadata for a.txt") :=
  ⟨C2_glob_errors_skipped.1 fsC2 "walk error" [.ok "b.txt"] none,
   C2_glob_errors_skipped.2 fsC2 "a.txt" "Permission denied"
     [.ok "b.txt"] none (by decide)⟩

/-! ## Claims about the sender -/

/-- C5: the blocking and the non-blocking upload paths have identical
observable semantics for every environment, endpoint, file path, and
caption: the same issued request (endpoint, multipart field names, derived
filename, parts), the same file access, and the same classification of the
outcome into success, local I/O failure, transport failure, and remote
rejection. -/
theorem C5_sync_async_equiv (env : Env) (url : String) (path : RPath)
    (message : Option String) :
    classify (send_file env url path message).outcome =
      classify (send_file_async env url path message).outcome ∧
    (send_file env url path message).request =
      (send_file_async env url path message).request ∧
    (send_file env url path message).fileTouched =
      (send_file_async env url path message).fileTouched := by
  obtain ⟨rend, fname⟩ := path
  obtain ⟨o, r, h, rs⟩ := env
  cases fname with
  | none => exact ⟨rfl, rfl, rfl⟩
  | some os =>
      obtain ⟨ts⟩ := os
      cases ts with
      | none => exact ⟨rfl, rfl, rfl⟩
      | some s =>
          cases o with
          | error e => exact ⟨rfl, rfl, rfl⟩
          | ok u =>
              cases r with
              | error e => exact ⟨rfl, rfl, rfl⟩
              | ok buf =>
                  cases h with
                  | error e => exact ⟨rfl, rfl, rfl⟩
                  | ok resp => exact ⟨rfl, rfl, rfl⟩

/-- C4: once the blocking path has a file name, file contents, and a
response, it returns success exactly when the status is in the 2xx class
(the code's `status().is_success()`), with no inspection of the response
body on success; for every non-2xx status it fails with a message that
contains the numeric status code and the response body text, the body
replaced by the fixed placeholder `No error message` exactly when it cannot
be read. -/
theorem C4_status_classification (env : Env) (url : String) (path : RPath)
    (message : Option String) (fn : String) (buf : List Nat)
    (resp : HttpResponse)
    (hname : path.file_name.bind OsStrM.to_str = some fn)
    (hopen : env.openResult = .ok ())
    (hread : env.readResult = .ok buf)
    (hhttp : env.httpResult = .ok resp) :
    ((send_file env url path message).outcome = .ok () ↔
      200 ≤ resp.status ∧ resp.status ≤ 299) ∧
    (¬ (200 ≤ resp.status ∧ resp.status ≤ 299) →
      ∃ m, (send_file env url path message).outcome = .error (.discordApi m) ∧
        (∃ a b, m = a ++ toString resp.status ++ b) ∧
        (∃ a b, m = a ++ (match resp.body with
          | .ok t => t
          | .error _ => "No error message") ++ b)) := by
  obtain ⟨o, r, h, rs⟩ := env
  dsimp only at hopen hread hhttp
  subst hopen hread hhttp
  unfold send_file
  rw [hname]
  dsimp only
  unfold classifyResponse status_is_success statusDisplay
  by_cases hs : 200 ≤ resp.status ∧ resp.status ≤ 299
  · have hb : (200 ≤ resp.status && resp.status < 300) = true := by
      simp only [Bool.and_eq_true, decide_eq_true_eq]
      omega
    rw [hb]
    simp [hs]
  · have hb : (200 ≤ resp.status && resp.status < 300) = false := by
      simp only [Bool.and_eq_false_iff, decide_eq_false_iff_not]
      omega
    rw [hb]
    refine ⟨by simp [hs], fun _ => ?_⟩
    refine ⟨_, rfl, ⟨"Discord API returned error: ",
      " " ++ rs resp.status ++ " - " ++ (match resp.body with
        | .ok t => t
        | .error _ => "No error message"), by simp [String.append_assoc]⟩,
      ⟨"Discord API returned error: " ++ toString resp.status ++ " " ++
        rs resp.status ++ " - ", "", by simp [String.append_assoc]⟩⟩

theorem C4_status_classification_witness :
    ((send_file envOk "https://discord.example/webhook" pathGood none).outcome
      = .ok ()) ∧
    (∃ m, (send_file envRejected "https://discord.example/webhook" pathGood
        none).outcome = .error (.discordApi m) ∧
      (∃ a b, m = a ++ toString 400 ++ b) ∧
      (∃ a b, m = a ++ "Invalid Webhook Token" ++ b)) :=
  ⟨((C4_status_classification envOk "https://discord.example/webhook" pathGood
      none "backup.tar.gz" [84, 101] ⟨204, .ok ""⟩ rfl rfl rfl rfl).1).mpr
      (by decide),
   (C4_status_classification envRejected "https://discord.example/webhook"
      pathGood none "backup.tar.gz" [84, 101]
      ⟨400, .ok "Invalid Webhook Token"⟩ rfl rfl rfl rfl).2 (by decide)⟩

/-- C8: whenever the upload reaches the request stage, the multipart form is
exactly one binary part with field name `file`, the read buffer, and the
derived file name as declared filename, followed by a text part with field
name `content` carrying the caption exactly when a caption was supplied;
in particular the form holds exactly one binary `file` part, and holds some
text part if and only if a caption was supplied. -/
theorem C8_multipart_form (env : Env) (url : String) (path : RPath)
    (message : Option String) (fn : String) (buf : List Nat)
    (hname : path.file_name.bind OsStrM.to_str = some fn)
    (hopen : env.openResult = .ok ())
    (hread : env.readResult = .ok buf) :
    ∃ form, (send_file env url path message).request = some (url, form) ∧
      form = FormPart.bytes "file" buf fn ::
        (match message with
         | some s => [FormPart.text "content" s]
         | none => []) ∧
      form.countP (fun part => match part with
        | .bytes f _ _ => f == "file"
        | .text _ _ => false) = 1 ∧
      (∀ s, message = some s → FormPart.text "content" s ∈ form) ∧
      ((∃ s t, FormPart.text s t ∈ form) ↔ message.isSome) := by
  obtain ⟨o, r, h, rs⟩ := env
  dsimp only at hopen hread
  subst hopen hread
  refine ⟨buildForm buf fn message, ?_, rfl, ?_, ?_, ?_⟩
  · unfold send_file
    rw [hname]
    cases h with
    | error e => rfl
    | ok resp => rfl
  · cases message with
    | none => rfl
    | some s => rfl
  · intro s hmsg
    subst hmsg
    simp [buildForm]
  · cases message with
    | none => simp [buildForm]
    | some s => simp [buildForm]

theorem C8_multipart_form_witness :
    ∃ form,
      (send_file envOk "https://discord.example/webhook" pathGood
        (some "new backup")).request =
        some ("https://discord.example/webhook", form) ∧
      form = FormPart.bytes "file" [84, 101] "backup.tar.gz" ::
        [FormPart.text "content" "new backup"] ∧
      form.countP (fun part => match part with
        | .bytes f _ _ => f == "file"
        | .text _ _ => false) = 1 ∧
      (∀ s, (some "new backup" : Option String) = some s →
        FormPart.text "content" s ∈ form) ∧
      ((∃ s t, FormPart.text s t ∈ form) ↔
        (some "new backup" : Option String).isSome) :=
  C8_multipart_form envOk "https://discord.example/webhook" pathGood
    (some "new backup") "backup.tar.gz" [84, 101] rfl rfl rfl

/-- C9: when the path has no extractable file-name component
(`Path::file_name` returns `None`, e.g. for a root path), both paths of the
uploader fail with the local `Failed to get file name` error for every
environment, having issued no HTTP request and not touched the file. -/
theorem C9_no_file_name (path : RPath) (hfn : path.file_name = none) :
    ∀ (env : Env) (url : String) (message : Option String),
      send_file env url path message =
        ⟨.error (.fileName "Failed to get file name"), none, false⟩ ∧
      send_file_async env url path message =
        ⟨.error (.fileName "Failed to get file name"), none, false⟩ := by
  obtain ⟨rend, fname⟩ := path
  dsimp only at hfn
  subst hfn
  exact fun env url message => ⟨rfl, rfl⟩

theorem C9_no_file_name_witness :
    send_file envOk "https://discord.example/webhook" pathRoot none =
      ⟨.error (.fileName "Failed to get file name"), none, false⟩ :=
  (C9_no_file_name pathRoot rfl envOk "https://discord.example/webhook" none).1

/-- C10 (implicit): when the path's final component exists but is not valid
UTF-8 (`to_str` returns `None`), both paths fail with the same local
`Failed to get file name` error, for every environment, without touching
the file or the network; consequently a successful upload guarantees the
declared attachment filename was extracted as a UTF-8 string. -/
theorem C10_non_utf8_file_name (path : RPath) (os : OsStrM)
    (hfn : path.file_name = some os) (hts : os.to_str = none) :
    (∀ (env : Env) (url : String) (message : Option String),
      send_file env url path message =
        ⟨.error (.fileName "Failed to get file name"), none, false⟩ ∧
      send_file_async env url path message =
        ⟨.error (.fileName "Failed to get file name"), none, false⟩) ∧
    (∀ (env : Env) (url : String) (q : RPath) (message : Option String),
      (send_file env url q message).outcome = .ok () →
      ∃ s, q.file_name.bind OsStrM.to_str = some s) := by
  constructor
  · obtain ⟨rend, fname⟩ := path
    dsimp only at hfn
    subst hfn
    obtain ⟨ts⟩ := os
    dsimp only at hts
    subst hts
    exact fun env url message => ⟨rfl, rfl⟩
  · intro env url q message hok
    cases hb : q.file_name.bind OsStrM.to_str with
    | some s => exact ⟨s, rfl⟩
    | none =>
        unfold send_file at hok
        rw [hb] at hok
        simp at hok

theorem C10_non_utf8_file_name_witness :
    (send_file envOk "https://discord.example/webhook" pathBadUtf8 none =
      ⟨.error (.fileName "Failed to get file name"), none, false⟩) ∧
    (∃ s, pathGood.file_name.bind OsStrM.to_str = some s) :=
  ⟨((C10_non_utf8_file_name pathBadUtf8 ⟨none⟩ rfl rfl).1 envOk
      "https://discord.example/webhook" none).1,
   (C10_non_utf8_file_name pathBadUtf8 ⟨none⟩ rfl rfl).2 envOk
      "https://discord.example/webhook" pathGood none (by decide)⟩

end LatestSender
